import Mathlib

/-!
Shallow embedding of the customer-analytics MCP workshop server
(`src/mastra/tools/compute-account-health.ts`, `src/mastra/tools/sql-tool.ts`,
and the auth utilities `src/mastra/mcp/utils.ts`).

JavaScript number arithmetic is modelled exactly over `ℚ` (and `ℤ` for
millisecond timestamps and integer counters); `Math.round` is Mathlib's
`round` (half-up, matching JS), `Math.floor` of an integer quotient is
`Int.fdiv`.  Fallible steps (thrown errors, rejected promises) are modelled
with `Except`.
-/

namespace Workshop

/-- `clamp` from `scoreAccount`: `Math.max(lo, Math.min(hi, v))`. -/
def clamp (v lo hi : ℚ) : ℚ := max lo (min hi v)

/-- The `metrics` object assembled in `computeAccountHealthTool.execute`
(step 4) and consumed by `scoreAccount`; `nps` is `number | null`. -/
structure Metrics where
  lastOrderDays : ℤ
  orderCountWindow : ℕ
  spendWindow : ℚ
  spendPrevWindow : ℚ
  spendDeltaPct : ℚ
  nps : Option ℚ
  openP1Tickets : ℕ
  slaBreachesWindow : ℕ
deriving DecidableEq, Repr

/-- The `tier` enum `"good" | "watch" | "at_risk"`. -/
inductive Tier where
  | good
  | watch
  | at_risk
deriving DecidableEq, Repr

/-- The tier selection line of `scoreAccount`:
`score >= 75 ? "good" : score >= 50 ? "watch" : "at_risk"`. -/
def tierOf (score : ℚ) : Tier :=
  if 75 ≤ score then .good else if 50 ≤ score then .watch else .at_risk

/-- Result record of `scoreAccount`. -/
structure ScoreResult where
  score : ℚ
  tier : Tier
  reasons : List String
deriving DecidableEq, Repr

/-- `scoreAccount` from `compute-account-health.ts` (lines 88–129),
translated line by line; JS float arithmetic is exact rational here. -/
def scoreAccount (m : Metrics) : ScoreResult :=
  let recency := clamp (100 - (m.lastOrderDays : ℚ)) 0 100
  let momentum := clamp (((m.spendDeltaPct) + 100) / 2) 0 100
  let satisfaction := match m.nps with
    | none => 50
    | some n => clamp n 0 100
  let reliabilityPenalty :=
    clamp (100 - ((m.openP1Tickets : ℚ) * 25 + (m.slaBreachesWindow : ℚ) * 15)) 0 100
  let score := clamp
    (recency * 0.3 + momentum * 0.3 + satisfaction * 0.25 + reliabilityPenalty * 0.15)
    0 100
  let reasons :=
    (if (60 : ℤ) < m.lastOrderDays then ["No recent orders (>60 days)"] else []) ++
    (if m.spendDeltaPct < -30 then ["Spend down >30% vs prior window"] else []) ++
    (if (m.nps.getD 50) < 30 then ["Low NPS score"] else []) ++
    (if 0 < m.openP1Tickets then
      [toString m.openP1Tickets ++ " open P1 support ticket(s)"] else []) ++
    (if 0 < m.slaBreachesWindow then
      [toString m.slaBreachesWindow ++ " recent SLA breach(es)"] else []) ++
    (if m.orderCountWindow = 0 then ["No orders in analysis window"] else [])
  { score := score, tier := tierOf score, reasons := reasons }

/-- `Math.round(scoreResult.score)` (execute, step 4): the reported
integer health score of an account with metrics `m`. -/
def healthScore (m : Metrics) : ℤ := round (scoreAccount m).score

/-- `spendDeltaPct` computation from execute (lines 206–210):
`spendWindow === 0 && spendPrevWindow === 0 ? 0
 : ((spendWindow - spendPrevWindow) / (spendPrevWindow || 1)) * 100`.
JS `x || 1` yields `1` exactly when `x` is `0` (falsy). -/
def spendDeltaPercent (spendWindow spendPrevWindow : ℚ) : ℚ :=
  if spendWindow = 0 ∧ spendPrevWindow = 0 then 0
  else (spendWindow - spendPrevWindow) /
    (if spendPrevWindow = 0 then 1 else spendPrevWindow) * 100

/-! ### Authentication utilities (`src/mastra/mcp/utils.ts`) -/

/-- `DemoUserInfo` from `utils.ts` (role is one of
`"admin" | "user" | "readonly"`, kept as a string as in the source). -/
structure DemoUserInfo where
  userId : String
  username : String
  role : String
  permissions : List String
deriving DecidableEq, Repr

/-- The MCP `AuthInfo` bundle as used by the mock registries:
`{token, clientId, scopes, extra}`. -/
structure AuthInfo where
  token : String
  clientId : String
  scopes : List String
  extra : DemoUserInfo
deriving DecidableEq, Repr

/-- `AuthContext` from `utils.ts`. -/
structure AuthContext where
  isAuthenticated : Bool
  authInfo : Option AuthInfo
  user : Option DemoUserInfo
  sessionId : Option String
deriving DecidableEq, Repr

/-- The `mockUsers` registry from `utils.ts` (stdio-transport identities). -/
def mockUsers : String → Option AuthInfo
  | "api_key_admin_123" => some
      { token := "api_key_admin_123", clientId := "demo-admin-client"
        scopes := ["read:all", "write:all", "delete:all"]
        extra := { userId := "admin-1", username := "admin", role := "admin"
                   permissions := ["read:all", "write:all", "delete:all"] } }
  | "api_key_user_456" => some
      { token := "api_key_user_456", clientId := "demo-user-client"
        scopes := ["read:users", "read:orders"]
        extra := { userId := "user-1", username := "analyst", role := "user"
                   permissions := ["read:users", "read:orders"] } }
  | "api_key_readonly_789" => some
      { token := "api_key_readonly_789", clientId := "demo-readonly-client"
        scopes := ["read:users"]
        extra := { userId := "readonly-1", username := "viewer", role := "readonly"
                   permissions := ["read:users"] } }
  | _ => none

/-- `authenticateRequest(options)` from `utils.ts`.  `transportAuth` is
`options?.extra?.authInfo`, `transportSessionId` is `options.extra.sessionId`,
and `envKey` is `process.env.DEMO_API_KEY` (`none` = unset; JS `|| "api_key_user_456"`
also replaces the empty string, which is falsy). -/
def authenticateRequest (transportAuth : Option AuthInfo)
    (transportSessionId : Option String) (envKey : Option String) : AuthContext :=
  match transportAuth with
  | some ai =>
      { isAuthenticated := true, authInfo := some ai, user := some ai.extra
        sessionId := transportSessionId }
  | none =>
      let apiKey := match envKey with
        | some k => if k = "" then "api_key_user_456" else k
        | none => "api_key_user_456"
      match mockUsers apiKey with
      | some ai =>
          { isAuthenticated := true, authInfo := some ai, user := some ai.extra
            sessionId := some "demo-session" }
      | none =>
          { isAuthenticated := false, authInfo := none, user := none, sessionId := none }

/-- `checkPermission(auth, permission)` from `utils.ts`. -/
def checkPermission (auth : AuthContext) (permission : String) : Bool :=
  if !auth.isAuthenticated then false
  else match auth.user with
    | none => false
    | some u => u.permissions.contains permission || u.role == "admin"

/-- The two error conditions raised by `requireAuth`. -/
inductive AuthError where
  | authenticationRequired
  | insufficientPermission (permission : String)
deriving DecidableEq, Repr

/-- The thrown `Error` message of each `AuthError`. -/
def AuthError.message : AuthError → String
  | .authenticationRequired =>
      "Authentication required. Please provide valid credentials."
  | .insufficientPermission p => "Insufficient permissions. Required: " ++ p

/-- `requireAuth(auth, permission?)` from `utils.ts`, with the thrown errors
as `Except.error`.  The JS guard `if (permission && !checkPermission(...))`
skips the check when `permission` is absent or the (falsy) empty string. -/
def requireAuth (auth : AuthContext) (permission : Option String) :
    Except AuthError Unit :=
  if !auth.isAuthenticated then .error .authenticationRequired
  else match permission with
    | none => .ok ()
    | some p =>
        if p ≠ "" ∧ !checkPermission auth p then .error (.insufficientPermission p)
        else .ok ()

/-! ### The `compute_account_health` workflow
(`computeAccountHealthTool.execute`, lines 149–341) -/

/-- A row of the in-memory `users` table (`mock-data`); the health tool uses
`id` and `name`, the SQL tool additionally `city` and `joined`. -/
structure User where
  id : ℤ
  name : String
  city : String
  joined : String
deriving DecidableEq, Repr

/-- A row of the in-memory `orders` ledger; `created` is the order's
timestamp in milliseconds since the epoch (`new Date(o.created).getTime()`). -/
structure Order where
  user_id : ℤ
  created : ℤ
  total : ℚ
deriving DecidableEq, Repr

/-- `24 * 3600 * 1000` milliseconds per day. -/
def dayMs : ℤ := 24 * 3600 * 1000

/-- `userOrders.length > 0 ? Math.max(...userOrders.map(created)) : 0`. -/
def lastOrderMs (userOrders : List Order) : ℤ :=
  match userOrders.map Order.created with
  | [] => 0
  | t :: ts => ts.foldl max t

/-- `lastOrder > 0 ? Math.floor((now - lastOrder) / dayMs) : 999`. -/
def lastOrderDaysOf (userOrders : List Order) (now : ℤ) : ℤ :=
  if 0 < lastOrderMs userOrders then Int.fdiv (now - lastOrderMs userOrders) dayMs
  else 999

/-- Per-account aggregate of step 1 of execute (`accountId`, `name`, `core`). -/
structure CoreRow where
  accountId : String
  name : String
  lastOrderDays : ℤ
  orderCountWindow : ℕ
  spendWindow : ℚ
  spendPrevWindow : ℚ
  spendDeltaPct : ℚ
deriving DecidableEq, Repr

/-- Step 1 of execute (lines 174–223): windowed order metrics per user.
`since = now - windowDays·day`, `prevSince = since - windowDays·day`. -/
def computeCoreMetrics (users : List User) (orders : List Order)
    (now : ℤ) (windowDays : ℕ) : List CoreRow :=
  let since := now - (windowDays : ℤ) * dayMs
  let prevSince := since - (windowDays : ℤ) * dayMs
  users.map fun user =>
    let userOrders := orders.filter fun o => o.user_id == user.id
    let lastOrderDays := lastOrderDaysOf userOrders now
    let windowOrders := userOrders.filter fun o => decide (since ≤ o.created)
    let orderCountWindow := windowOrders.length
    let spendWindow := (windowOrders.map Order.total).sum
    let prevWindowOrders := userOrders.filter fun o =>
      decide (prevSince ≤ o.created) && decide (o.created < since)
    let spendPrevWindow := (prevWindowOrders.map Order.total).sum
    { accountId := toString user.id, name := user.name
      lastOrderDays := lastOrderDays, orderCountWindow := orderCountWindow
      spendWindow := spendWindow, spendPrevWindow := spendPrevWindow
      spendDeltaPct := spendDeltaPercent spendWindow spendPrevWindow }

/-- The `segment` input enum `"all" | "inactive" | "highValue"`. -/
inductive Segment where
  | all
  | inactive
  | highValue
deriving DecidableEq, Repr

/-- Step 2's segment predicate (lines 226–231). -/
def segmentKeep (segment : Segment) (m : CoreRow) : Bool :=
  match segment with
  | .inactive => decide (45 < m.lastOrderDays)
  | .highValue => decide (100 ≤ m.spendWindow)
  | .all => true

/-- `npsMap[id] ?? null`: a missing key and an explicit `null` value both
degrade to `null`. -/
def lookupNps (npsEntries : List (String × Option ℚ)) (id : String) : Option ℚ :=
  (npsEntries.lookup id).getD none

/-- `supportMap[id]?.openP1Tickets ?? 0`. -/
def lookupP1 (supportEntries : List (String × ℕ × ℕ)) (id : String) : ℕ :=
  ((supportEntries.lookup id).map Prod.fst).getD 0

/-- `supportMap[id]?.slaBreachesWindow ?? 0`. -/
def lookupSla (supportEntries : List (String × ℕ × ℕ)) (id : String) : ℕ :=
  ((supportEntries.lookup id).map Prod.snd).getD 0

/-- An element of the returned `accounts` array (`AccountHealthRow`). -/
structure HealthRecord where
  accountId : String
  name : String
  healthScore : ℤ
  tier : Tier
  metrics : Metrics
  reasons : Option (List String)
deriving DecidableEq, Repr

/-- Step 4 of execute (lines 250–272): fuse a core row with the external
signal maps and score it. -/
def scoreRow (includeReasons : Bool) (npsEntries : List (String × Option ℚ))
    (supportEntries : List (String × ℕ × ℕ)) (f : CoreRow) : HealthRecord :=
  let m : Metrics :=
    { lastOrderDays := f.lastOrderDays, orderCountWindow := f.orderCountWindow
      spendWindow := f.spendWindow, spendPrevWindow := f.spendPrevWindow
      spendDeltaPct := f.spendDeltaPct
      nps := lookupNps npsEntries f.accountId
      openP1Tickets := lookupP1 supportEntries f.accountId
      slaBreachesWindow := lookupSla supportEntries f.accountId }
  { accountId := f.accountId, name := f.name
    healthScore := healthScore m, tier := (scoreAccount m).tier, metrics := m
    reasons := if includeReasons then some (scoreAccount m).reasons else none }

/-- Step 5's sort comparator
`a.healthScore - b.healthScore || a.accountId.localeCompare(b.accountId)`
as a boolean "less-or-equal" for the stable sort. -/
def healthLe (a b : HealthRecord) : Bool :=
  decide (a.healthScore < b.healthScore) ||
    (a.healthScore == b.healthScore && decide (a.accountId ≤ b.accountId))

/-- `auth.user?.role === "readonly"` (optional chaining: `false` without a user). -/
def isReadonlyRole (auth : AuthContext) : Bool :=
  match auth.user with
  | some u => u.role == "readonly"
  | none => false

/-- `acc[tier] = (acc[tier] || 0) + 1` over a JS object, modelled as an
association list in key-insertion order. -/
def bump : List (String × ℕ) → String → List (String × ℕ)
  | [], k => [(k, 1)]
  | (k', n) :: rest, k =>
      if k = k' then (k', n + 1) :: rest else (k', n) :: bump rest k

/-- String name of a tier, as used for the `segmentBreakdown` keys. -/
def tierName : Tier → String
  | .good => "good"
  | .watch => "watch"
  | .at_risk => "at_risk"

/-- The `summary` object of the output schema. -/
structure Summary where
  totalAnalyzed : ℕ
  segmentBreakdown : List (String × ℕ)
  avgHealthScore : ℤ
  npsAvailable : ℕ
  supportDataAvailable : ℕ
deriving DecidableEq, Repr

/-- The output shape of `compute_account_health`. -/
structure Output where
  accounts : List HealthRecord
  summary : Summary
deriving DecidableEq, Repr

/-- The structured empty result returned by the `catch` block
(lines 324–339). -/
def emptyOutput : Output :=
  { accounts := []
    summary := { totalAnalyzed := 0, segmentBreakdown := [], avgHealthScore := 0
                 npsAvailable := 0, supportDataAvailable := 0 } }

/-- Steps 1–6 of execute after both external fetches have fulfilled, with
`npsEntries`/`supportEntries` the fulfilled `Record` entries. -/
def successOutput (users : List User) (orders : List Order) (now : ℤ)
    (auth : AuthContext) (segment : Segment) (windowDays : ℕ) (limit : ℕ)
    (includeReasons : Bool) (npsEntries : List (String × Option ℚ))
    (supportEntries : List (String × ℕ × ℕ)) : Output :=
  let metrics := computeCoreMetrics users orders now windowDays
  let filtered := (metrics.filter (segmentKeep segment)).take 500
  let scored := filtered.map (scoreRow includeReasons npsEntries supportEntries)
  let sorted := scored.mergeSort healthLe
  let roleLimit := if isReadonlyRole auth then min limit 10 else limit
  let finalResults := sorted.take roleLimit
  let segmentBreakdown :=
    finalResults.foldl (fun acc a => bump acc (tierName a.tier)) []
  let avgHealthScore : ℤ :=
    if finalResults.length = 0 then 0
    else round (((finalResults.map fun a => (a.healthScore : ℚ)).sum) /
      (finalResults.length : ℚ))
  { accounts := finalResults
    summary :=
      { totalAnalyzed := finalResults.length
        segmentBreakdown := segmentBreakdown
        avgHealthScore := avgHealthScore
        npsAvailable := (npsEntries.filter fun p => p.2.isSome).length
        supportDataAvailable := supportEntries.length } }

/-- The body of the `try` block of execute: the permission gate, then the
joint `Promise.all` wait (fail-fast: a rejected fetch rejects the join), then
the pure steps.  Every failure surfaces as `Except.error`. -/
def innerCompute (users : List User) (orders : List Order) (now : ℤ)
    (auth : AuthContext) (segment : Segment) (windowDays : ℕ) (limit : ℕ)
    (includeReasons : Bool) (npsFetch : Except String (List (String × Option ℚ)))
    (supportFetch : Except String (List (String × ℕ × ℕ))) :
    Except String Output :=
  match requireAuth auth (some "read:users") with
  | .error e => .error e.message
  | .ok _ =>
      match npsFetch, supportFetch with
      | .ok npsEntries, .ok supportEntries =>
          .ok (successOutput users orders now auth segment windowDays limit
            includeReasons npsEntries supportEntries)
      | .error e, _ => .error e
      | _, .error e => .error e

/-- `computeAccountHealthTool.execute`: the `try`/`catch` wrapper converting
any internal failure into the structured empty result. -/
def computeAccountHealth (users : List User) (orders : List Order) (now : ℤ)
    (auth : AuthContext) (segment : Segment) (windowDays : ℕ) (limit : ℕ)
    (includeReasons : Bool) (npsFetch : Except String (List (String × Option ℚ)))
    (supportFetch : Except String (List (String × ℕ × ℕ))) : Output :=
  match innerCompute users orders now auth segment windowDays limit
    includeReasons npsFetch supportFetch with
  | .ok out => out
  | .error _ => emptyOutput

/-! ### The `run_sql` tool (`src/mastra/tools/sql-tool.ts`) -/

/-- `String.prototype.toLowerCase`, on the character list of a string. -/
def toLowerChars (cs : List Char) : List Char := cs.map Char.toLower

/-- `String.prototype.trim`: strip whitespace from both ends. -/
def trimChars (cs : List Char) : List Char :=
  ((cs.dropWhile Char.isWhitespace).reverse.dropWhile Char.isWhitespace).reverse

/-- JS `String.prototype.includes`: `pat` occurs as a contiguous substring. -/
def includesChars (pat : List Char) : List Char → Bool
  | [] => pat.isEmpty
  | c :: rest => pat.isPrefixOf (c :: rest) || includesChars pat rest

/-- Splitting a character list into the (possibly empty) runs separated by
characters failing `p` — the semantics of splitting a JS string on a
non-`p`-character class.  `cur` is the current run, accumulated reversed. -/
def splitRunsGo (p : Char → Bool) (cur : List Char) : List Char → List (List Char)
  | [] => [cur.reverse]
  | c :: rest =>
      if p c then splitRunsGo p (c :: cur) rest
      else cur.reverse :: splitRunsGo p [] rest

/-- A regex word character: `[A-Za-z0-9_]`. -/
def isWordChar (c : Char) : Bool := c.isAlphanum || c == '_'

/-- The regex test `/^\s*select/i`. -/
def startsSelect (s : String) : Bool :=
  "select".data.isPrefixOf (toLowerChars (s.data.dropWhile Char.isWhitespace))

/-- The regex test `/\blimit\b/i`: `limit` occurs as a whole word. -/
def hasLimitWord (s : String) : Bool :=
  (splitRunsGo isWordChar [] (toLowerChars s.data)).contains "limit".data

/-- Result record of `parseSQL` (field `err` is the `error` property). -/
structure ParsedSQL where
  table : Option String
  operation : String
  err : Option String
deriving DecidableEq, Repr

/-- `parseSQL` from `sql-tool.ts` (lines 8–29), over the query's character
list (`sql.trim().toLowerCase()` and `includes` modelled structurally). -/
def parseSQL (sqlChars : List Char) : ParsedSQL :=
  let trimmed := toLowerChars (trimChars sqlChars)
  if !"select".data.isPrefixOf trimmed then
    { table := none, operation := "invalid"
      err := some "Only SELECT queries are allowed." }
  else if includesChars "users".data trimmed then
    { table := some "users", operation := "select", err := none }
  else if includesChars "orders".data trimmed then
    { table := some "orders", operation := "select", err := none }
  else
    { table := none, operation := "select"
      err := some "Table not found. Available tables: users, orders" }

/-- A result row of `executeQuery` (user row, order row, distinct-city row,
or simulated-join row). -/
inductive Row where
  | user (u : User)
  | order (o : Order)
  | city (city : String)
  | joined (id : ℤ) (name : String) (city : String) (joined : String)
      (total_spend : ℚ) (order_count : ℕ)
deriving DecidableEq, Repr

/-- `executeQuery` from `sql-tool.ts` (lines 31–77); its `throw` is the
`Except.error`. -/
def executeQuery (users : List User) (orders : List Order)
    (sqlChars : List Char) (limit : ℕ) : Except String (List Row) :=
  let parsed := parseSQL sqlChars
  match parsed.err with
  | some e => .error e
  | none =>
      let trimmed := toLowerChars (trimChars sqlChars)
      if includesChars "distinct".data trimmed && includesChars "city".data trimmed then
        .ok (((users.map User.city).eraseDups).map Row.city)
      else if includesChars "join".data trimmed ||
          (includesChars "users".data trimmed && includesChars "orders".data trimmed) then
        .ok ((users.map fun user =>
          let userOrders := orders.filter fun o => o.user_id == user.id
          Row.joined user.id user.name user.city user.joined
            ((userOrders.map Order.total).sum) userOrders.length).take limit)
      else if parsed.table == some "users" then
        .ok ((users.take limit).map Row.user)
      else if parsed.table == some "orders" then
        .ok ((orders.take limit).map Row.order)
      else
        .ok ((users.take limit).map Row.user)

/-- The `metadata` object of the `run_sql` output (`err` is its `error`
property). -/
structure SqlMetadata where
  executedBy : String
  permission : String
  filteredByRole : Bool
  err : Option String
deriving DecidableEq, Repr

/-- The `run_sql` output shape. -/
structure SqlOutput where
  rows : List Row
  rowCount : ℕ
  metadata : SqlMetadata
deriving DecidableEq, Repr

/-- `runSqlTool.execute` (lines 100–169), translated faithfully: it receives
the caller's auth context in `options` but never reads it — no
`authenticateRequest`/`requireAuth` call occurs — so the context parameter
is unused.  The only throw reaching the outer catch is the SELECT guardrail. -/
def runSqlExecute (users : List User) (orders : List Order)
    (_auth : AuthContext) (sql : String) (limit : ℕ) : SqlOutput :=
  let parsed := parseSQL sql.data
  let sqlLower := toLowerChars sql.data
  let requiredPermission :=
    if parsed.table == some "orders" || includesChars "orders".data sqlLower then
      "read:orders"
    else if includesChars "join".data sqlLower ||
        includesChars "orders".data sqlLower then
      "read:orders"
    else "read:users"
  if !startsSelect sql then
    { rows := [], rowCount := 0
      metadata := { executedBy := "unknown", permission := "unknown"
                    filteredByRole := false
                    err := some "Only SELECT queries are allowed." } }
  else
    let sql2 := if hasLimitWord sql then sql.data
      else trimChars sql.data ++ (" LIMIT " ++ toString limit).data
    match executeQuery users orders sql2 limit with
    | .ok rows =>
        { rows := rows, rowCount := rows.length
          metadata := { executedBy := "unknown", permission := requiredPermission
                        filteredByRole := false, err := none } }
    | .error e =>
        { rows := [], rowCount := 0
          metadata := { executedBy := "unknown", permission := requiredPermission
                        filteredByRole := false, err := some e } }

/-! ### Helper lemmas -/

lemma lo_le_clamp (v lo hi : ℚ) : lo ≤ clamp v lo hi := le_max_left _ _

lemma clamp_le_hi (v lo hi : ℚ) (h : lo ≤ hi) : clamp v lo hi ≤ hi :=
  max_le h (min_le_left _ _)

lemma round_nonneg_of_nonneg {x : ℚ} (h : 0 ≤ x) : 0 ≤ round x := by
  rw [round_eq]
  exact Int.le_floor.mpr (by push_cast; linarith)

lemma round_le_hundred {x : ℚ} (h : x ≤ 100) : round x ≤ 100 := by
  rw [round_eq]
  have : ⌊x + 1 / 2⌋ < 101 := Int.floor_lt.mpr (by push_cast; linarith)
  omega

lemma scoreAccount_tier_eq (m : Metrics) :
    (scoreAccount m).tier = tierOf (scoreAccount m).score := rfl

/-- C1: for every metrics input, `scoreAccount`'s composite score is the
weighted clamped sum `clamp(0.30·recency + 0.30·momentum + 0.25·satisfaction
+ 0.15·reliability, 0, 100)` with recency `clamp(100 − lastOrderDays, 0, 100)`,
momentum `clamp((spendDeltaPct + 100)/2, 0, 100)`, satisfaction
`clamp(nps, 0, 100)` (neutral 50 when nps is null) and reliability
`clamp(100 − (openP1Tickets·25 + slaBreachesWindow·15), 0, 100)`; the
reported `healthScore` is this composite rounded to the nearest integer and
lies in `[0, 100]`. -/
theorem composite_score_formula (m : Metrics) :
    (scoreAccount m).score =
      clamp (0.3 * clamp (100 - (m.lastOrderDays : ℚ)) 0 100
        + 0.3 * clamp ((m.spendDeltaPct + 100) / 2) 0 100
        + 0.25 * (match m.nps with | none => (50 : ℚ) | some n => clamp n 0 100)
        + 0.15 * clamp (100 - ((m.openP1Tickets : ℚ) * 25
            + (m.slaBreachesWindow : ℚ) * 15)) 0 100) 0 100
    ∧ healthScore m = round (scoreAccount m).score
    ∧ 0 ≤ healthScore m ∧ healthScore m ≤ 100 := by
  have hformula : (scoreAccount m).score =
      clamp (0.3 * clamp (100 - (m.lastOrderDays : ℚ)) 0 100
        + 0.3 * clamp ((m.spendDeltaPct + 100) / 2) 0 100
        + 0.25 * (match m.nps with | none => (50 : ℚ) | some n => clamp n 0 100)
        + 0.15 * clamp (100 - ((m.openP1Tickets : ℚ) * 25
            + (m.slaBreachesWindow : ℚ) * 15)) 0 100) 0 100 := by
    rcases m with ⟨lod, ocw, sw, spw, sdp, nps, p1, sla⟩
    rcases nps with _ | n <;> · simp only [scoreAccount]; ring_nf
  have h0 : 0 ≤ (scoreAccount m).score := by
    rw [hformula]; exact lo_le_clamp _ _ _
  have h100 : (scoreAccount m).score ≤ 100 := by
    rw [hformula]; exact clamp_le_hi _ _ _ (by norm_num)
  exact ⟨hformula, rfl, round_nonneg_of_nonneg h0, round_le_hundred h100⟩

/-- C2 counterexample: the tier is derived from the unrounded composite, not
from the rounded `healthScore`.  With metrics `(lastOrderDays 0,
spendDeltaPct 0, nps 58, no tickets/breaches)` the composite is 74.5, so the
reported `healthScore` is 75 while the tier is `watch`, refuting
"healthScore ≥ 75 gives tier good". -/
theorem tier_vs_rounded_score_cex :
    healthScore ⟨0, 1, 0, 0, 0, some 58, 0, 0⟩ = 75 ∧
    (scoreAccount ⟨0, 1, 0, 0, 0, some 58, 0, 0⟩).score = 149 / 2 ∧
    (scoreAccount ⟨0, 1, 0, 0, 0, some 58, 0, 0⟩).tier = Tier.watch ∧
    Tier.watch ≠ Tier.good := by
  have hs : (scoreAccount ⟨0, 1, 0, 0, 0, some 58, 0, 0⟩).score = 149 / 2 := by
    simp only [scoreAccount]
    norm_num [clamp]
  refine ⟨?_, hs, ?_, by decide⟩
  · show round (scoreAccount ⟨0, 1, 0, 0, 0, some 58, 0, 0⟩).score = 75
    rw [hs, round_eq]
    norm_num
  · rw [scoreAccount_tier_eq, hs]
    unfold tierOf
    rw [if_neg (by norm_num), if_pos (by norm_num)]

/-- C2 amended: the tier is determined from the unrounded composite score by
the fixed thresholds — `score ≥ 75` gives `good`, `50 ≤ score < 75` gives
`watch`, and `score < 50` gives `at_risk`; the boundaries are exact on the
composite (not on the rounded `healthScore`). -/
lemma tierOf_eq_good {s : ℚ} : tierOf s = Tier.good ↔ 75 ≤ s := by
  unfold tierOf
  split_ifs with h1 h2
  · exact ⟨fun _ => h1, fun _ => rfl⟩
  · exact ⟨(fun h => nomatch h), fun h => absurd h h1⟩
  · exact ⟨(fun h => nomatch h), fun h => absurd h h1⟩

lemma tierOf_eq_watch {s : ℚ} : tierOf s = Tier.watch ↔ 50 ≤ s ∧ s < 75 := by
  unfold tierOf
  split_ifs with h1 h2
  · exact ⟨(fun h => nomatch h), fun h => absurd h1 (not_le.mpr h.2)⟩
  · exact ⟨fun _ => ⟨h2, not_le.mp h1⟩, fun _ => rfl⟩
  · exact ⟨(fun h => nomatch h), fun h => absurd h.1 h2⟩

lemma tierOf_eq_at_risk {s : ℚ} : tierOf s = Tier.at_risk ↔ s < 50 := by
  unfold tierOf
  split_ifs with h1 h2
  · exact ⟨(fun h => nomatch h), fun h => by linarith⟩
  · exact ⟨(fun h => nomatch h), fun h => absurd h2 (not_le.mpr h)⟩
  · exact ⟨fun _ => not_le.mp h2, fun _ => rfl⟩

/-- C2 amended: the tier is determined from the unrounded composite score by
the fixed thresholds — `score ≥ 75` gives `good`, `50 ≤ score < 75` gives
`watch`, and `score < 50` gives `at_risk`; the boundaries are exact on the
composite (not on the rounded `healthScore`). -/
theorem tier_thresholds_on_composite (m : Metrics) :
    ((scoreAccount m).tier = Tier.good ↔ 75 ≤ (scoreAccount m).score) ∧
    ((scoreAccount m).tier = Tier.watch ↔
      50 ≤ (scoreAccount m).score ∧ (scoreAccount m).score < 75) ∧
    ((scoreAccount m).tier = Tier.at_risk ↔ (scoreAccount m).score < 50) := by
  rw [scoreAccount_tier_eq]
  exact ⟨tierOf_eq_good, tierOf_eq_watch, tierOf_eq_at_risk⟩

/-- C3: the workflow always answers — whenever the caller is unauthenticated,
and more generally whenever any internal step fails (the permission gate or a
rejected fetch), `computeAccountHealth` returns the structured empty result
`{accounts: [], summary: all zero}` instead of propagating the exception. -/
theorem computeAccountHealth_always_answers
    (users : List User) (orders : List Order) (now : ℤ) (auth : AuthContext)
    (segment : Segment) (windowDays limit : ℕ) (includeReasons : Bool)
    (npsFetch : Except String (List (String × Option ℚ)))
    (supportFetch : Except String (List (String × ℕ × ℕ))) :
    (auth.isAuthenticated = false →
      computeAccountHealth users orders now auth segment windowDays limit
        includeReasons npsFetch supportFetch = emptyOutput) ∧
    (∀ e, innerCompute users orders now auth segment windowDays limit
        includeReasons npsFetch supportFetch = .error e →
      computeAccountHealth users orders now auth segment windowDays limit
        includeReasons npsFetch supportFetch = emptyOutput) := by
  constructor
  · intro h
    simp [computeAccountHealth, innerCompute, requireAuth, h]
  · intro e h
    unfold computeAccountHealth
    rw [h]

theorem computeAccountHealth_always_answers_witness :
    (AuthContext.mk false none none none).isAuthenticated = false ∧
    computeAccountHealth [] [] 0 (AuthContext.mk false none none none)
      Segment.all 90 50 true (.ok []) (.ok []) = emptyOutput :=
  ⟨rfl, (computeAccountHealth_always_answers [] [] 0
    (AuthContext.mk false none none none) Segment.all 90 50 true
    (.ok []) (.ok [])).1 rfl⟩

/-- C4 counterexample: the external-signal join is `Promise.all`, which is
fail-fast — a rejected source aborts the whole request, which then returns
the structured empty result; the other source's data (here one support
record) is discarded rather than used with only the nps field degraded. -/
theorem failed_source_aborts_request_cex :
    computeAccountHealth [⟨1, "Ada", "Berlin", "2024-01-01"⟩] [] 0
      ⟨true, none, some ⟨"user-1", "analyst", "user",
        ["read:users", "read:orders"]⟩, none⟩
      Segment.all 90 50 false (.error "nps source down") (.ok [("1", 0, 0)])
      = emptyOutput ∧
    (computeAccountHealth [⟨1, "Ada", "Berlin", "2024-01-01"⟩] [] 0
      ⟨true, none, some ⟨"user-1", "analyst", "user",
        ["read:users", "read:orders"]⟩, none⟩
      Segment.all 90 50 false (.ok []) (.ok [("1", 0, 0)])).summary.supportDataAvailable
      = 1 ∧
    emptyOutput.summary.supportDataAvailable = 0 ∧
    emptyOutput.accounts = [] :=
  ⟨rfl, rfl, rfl, rfl⟩

/-- C4 amended: the pipeline waits for both fetches; if either source fails
(rejects), the whole request returns the structured empty result (per the
always-answer contract) — only when both sources fulfil does each account's
record carry per-account degradation: a missing or null nps entry becomes
null, a missing support entry becomes zero counts, each field independently
looked up from its own source's response. -/
theorem external_signal_join_behavior
    (users : List User) (orders : List Order) (now : ℤ) (auth : AuthContext)
    (segment : Segment) (windowDays limit : ℕ) (includeReasons : Bool) :
    (∀ e sf, computeAccountHealth users orders now auth segment windowDays limit
      includeReasons (.error e) sf = emptyOutput) ∧
    (∀ nf e, computeAccountHealth users orders now auth segment windowDays limit
      includeReasons nf (.error e) = emptyOutput) ∧
    (∀ ne se, ((computeAccountHealth users orders now auth segment windowDays limit
        includeReasons (.ok ne) (.ok se)).accounts).Forall fun a =>
      a.metrics.nps = lookupNps ne a.accountId ∧
      a.metrics.openP1Tickets = lookupP1 se a.accountId ∧
      a.metrics.slaBreachesWindow = lookupSla se a.accountId) := by
  refine ⟨?_, ?_, ?_⟩
  · intro e sf
    rcases h : requireAuth auth (some "read:users") with e' | u
    · simp [computeAccountHealth, innerCompute, h]
    · rcases sf with e2 | se <;> simp [computeAccountHealth, innerCompute, h]
  · intro nf e
    rcases h : requireAuth auth (some "read:users") with e' | u
    · simp [computeAccountHealth, innerCompute, h]
    · rcases nf with e2 | ne <;> simp [computeAccountHealth, innerCompute, h]
  · intro ne se
    rcases h : requireAuth auth (some "read:users") with e' | u
    · simp [computeAccountHealth, innerCompute, h, emptyOutput, List.Forall]
    · simp only [computeAccountHealth, innerCompute, h, successOutput]
      rw [List.forall_iff_forall_mem]
      intro a ha
      have h1 : a ∈ (((computeCoreMetrics users orders now windowDays).filter
          (segmentKeep segment)).take 500).map
            (scoreRow includeReasons ne se) :=
        (List.mergeSort_perm _ healthLe).mem_iff.mp (List.take_subset _ _ ha)
      obtain ⟨f, hf, rfl⟩ := List.mem_map.1 h1
      exact ⟨rfl, rfl, rfl⟩

/-- C5 counterexample: `requireAuth` does not fail for an authenticated
non-admin principal when the given permission is the empty string, even
though that permission is not in the principal's permission set — the JS
truthiness guard `if (permission && ...)` skips the check for `""`. -/
theorem requireAuth_empty_permission_cex :
    requireAuth ⟨true, none, some ⟨"user-1", "analyst", "user",
      ["read:users", "read:orders"]⟩, none⟩ (some "") = .ok () ∧
    "" ∉ (["read:users", "read:orders"] : List String) ∧
    ("user" : String) ≠ "admin" :=
  ⟨rfl, by decide, by decide⟩

/-- C5 amended: `requireAuth` fails with the authentication-required error
whenever the context is unauthenticated, regardless of the permission
argument; for an authenticated context with a principal and a NONEMPTY
permission, it fails with the insufficient-permission error naming that
permission exactly when the role is not admin and the permission is not in
the principal's set; an empty-string permission (falsy in JS) is treated as
no permission check; role admin passes every permission check; the function
is pure (its only effect is the returned error value). -/
theorem requireAuth_contract (auth : AuthContext) :
    (∀ permission, auth.isAuthenticated = false →
      requireAuth auth permission = .error .authenticationRequired) ∧
    (auth.isAuthenticated = true →
      requireAuth auth none = .ok () ∧ requireAuth auth (some "") = .ok ()) ∧
    (∀ p u, auth.isAuthenticated = true → auth.user = some u → p ≠ "" →
      (requireAuth auth (some p) = .error (.insufficientPermission p) ↔
        u.role ≠ "admin" ∧ p ∉ u.permissions)) ∧
    (∀ p u, auth.isAuthenticated = true → auth.user = some u →
      u.role = "admin" → requireAuth auth (some p) = .ok ()) := by
  refine ⟨?_, ?_, ?_, ?_⟩
  · intro permission h
    simp [requireAuth, h]
  · intro h
    exact ⟨by simp [requireAuth, h], by simp [requireAuth, h]⟩
  · intro p u h hu hp
    by_cases hadmin : u.role = "admin"
    · simp [requireAuth, checkPermission, h, hu, hadmin]
    · by_cases hmem : p ∈ u.permissions
      · simp [requireAuth, checkPermission, h, hu, hp, hadmin, hmem]
      · simp [requireAuth, checkPermission, h, hu, hp, hadmin, hmem]
  · intro p u h hu hadmin
    simp [requireAuth, checkPermission, h, hu, hadmin]

theorem requireAuth_contract_witness :
    requireAuth ⟨false, none, none, none⟩ (some "read:users")
      = .error .authenticationRequired ∧
    requireAuth ⟨true, none, some ⟨"admin-1", "admin", "admin",
      ["read:all"]⟩, none⟩ (some "write:anything") = .ok () ∧
    requireAuth ⟨true, none, some ⟨"user-1", "analyst", "user",
      ["read:users", "read:orders"]⟩, none⟩ (some "delete:users")
      = .error (.insufficientPermission "delete:users") :=
  ⟨(requireAuth_contract ⟨false, none, none, none⟩).1 (some "read:users") rfl,
   (requireAuth_contract _).2.2.2 "write:anything"
     ⟨"admin-1", "admin", "admin", ["read:all"]⟩ rfl rfl rfl,
   ((requireAuth_contract _).2.2.1 "delete:users"
     ⟨"user-1", "analyst", "user", ["read:users", "read:orders"]⟩ rfl rfl
     (by decide)).mpr ⟨by decide, by decide⟩⟩

/-- C6 counterexample: the delta's denominator is `prevSpend || 1`, which is
`prevSpend` itself for any nonzero value — for a prior-window spend of 1/2
the code yields 29900, not the 14950 that the claimed `max(prevSpend, 1)`
denominator would give. -/
theorem spendDelta_denominator_cex :
    spendDeltaPercent 150 (1 / 2) = 29900 ∧
    (150 - 1 / 2 : ℚ) / max (1 / 2 : ℚ) 1 * 100 = 14950 ∧
    (29900 : ℚ) ≠ 14950 :=
  ⟨by norm_num [spendDeltaPercent], by norm_num, by norm_num⟩

/-- C6 amended: `spendDeltaPercent` is 0 when both window spends are 0 and
otherwise `(spend − prevSpend) / d × 100` with denominator `d = prevSpend`
when nonzero and 1 when zero; this agrees with the claimed `max(prevSpend, 1)`
exactly when the prior spend is 0 or at least 1 — in particular current
spend 150 with prior spend 0 uses denominator 1 and yields 15000. -/
theorem spendDeltaPercent_amended (s p : ℚ) :
    (s = 0 ∧ p = 0 → spendDeltaPercent s p = 0) ∧
    (p = 0 ∨ 1 ≤ p → ¬(s = 0 ∧ p = 0) →
      spendDeltaPercent s p = (s - p) / max p 1 * 100) ∧
    spendDeltaPercent 150 0 = 15000 ∧ spendDeltaPercent 0 0 = 0 := by
  refine ⟨?_, ?_, by norm_num [spendDeltaPercent], by norm_num [spendDeltaPercent]⟩
  · intro h
    simp [spendDeltaPercent, h]
  · intro hp hne
    rcases hp with hp | hp
    · subst hp
      rw [spendDeltaPercent, if_neg hne, if_pos rfl, max_eq_right (by norm_num)]
    · have hpne : p ≠ 0 := by linarith
      rw [spendDeltaPercent, if_neg hne, if_neg hpne, max_eq_left hp]

theorem spendDeltaPercent_amended_witness :
    spendDeltaPercent 150 0 = (150 - 0) / max (0 : ℚ) 1 * 100 :=
  (spendDeltaPercent_amended 150 0).2.1 (Or.inl rfl) (by norm_num)

/-- C7: for every authenticated call the returned accounts list has length at
most `min(requestedLimit, roleCap(role))` with `roleCap(readonly) = 10` and
`roleCap = limit` for every other role; on the success path the length is
exactly the role limit capped by the post-filter population. -/
theorem role_capped_result_length
    (users : List User) (orders : List Order) (now : ℤ) (auth : AuthContext)
    (segment : Segment) (windowDays limit : ℕ) (includeReasons : Bool)
    (npsFetch : Except String (List (String × Option ℚ)))
    (supportFetch : Except String (List (String × ℕ × ℕ)))
    (hauth : auth.isAuthenticated = true) :
    (computeAccountHealth users orders now auth segment windowDays limit
      includeReasons npsFetch supportFetch).accounts.length
      ≤ min limit (if isReadonlyRole auth then 10 else limit) ∧
    (∀ ne se, requireAuth auth (some "read:users") = .ok () →
      (computeAccountHealth users orders now auth segment windowDays limit
        includeReasons (.ok ne) (.ok se)).accounts.length
        = min (if isReadonlyRole auth then min limit 10 else limit)
            (((computeCoreMetrics users orders now windowDays).filter
              (segmentKeep segment)).take 500).length) := by
  constructor
  · rcases h : requireAuth auth (some "read:users") with e | u
    · simp [computeAccountHealth, innerCompute, h, emptyOutput]
    · rcases npsFetch with e | ne
      · simp [computeAccountHealth, innerCompute, h, emptyOutput]
      · rcases supportFetch with e | se
        · simp [computeAccountHealth, innerCompute, h, emptyOutput]
        · cases hr : isReadonlyRole auth <;>
            simp [computeAccountHealth, innerCompute, h, successOutput, hr,
              List.length_take, List.length_mergeSort, List.length_map]
  · intro ne se h
    cases hr : isReadonlyRole auth <;>
      simp [computeAccountHealth, innerCompute, h, successOutput, hr,
        List.length_take, List.length_mergeSort, List.length_map]

theorem role_capped_result_length_witness :
    (AuthContext.mk true none (some ⟨"user-1", "analyst", "user",
      ["read:users", "read:orders"]⟩) none).isAuthenticated = true ∧
    (computeAccountHealth [] [] 0 (AuthContext.mk true none
      (some ⟨"user-1", "analyst", "user", ["read:users", "read:orders"]⟩) none)
      Segment.all 90 50 true (.ok []) (.ok [])).accounts.length
      ≤ min 50 (if isReadonlyRole (AuthContext.mk true none
          (some ⟨"user-1", "analyst", "user", ["read:users", "read:orders"]⟩)
          none) then 10 else 50) :=
  ⟨rfl, (role_capped_result_length [] [] 0 _ Segment.all 90 50 true
    (.ok []) (.ok []) rfl).1⟩

lemma le_foldl_max (ts : List ℤ) (t : ℤ) : t ≤ ts.foldl max t := by
  induction ts generalizing t with
  | nil => exact le_refl t
  | cons a ts ih => exact le_trans (le_max_left t a) (ih (max t a))

lemma foldl_max_le_of_mem :
    ∀ (ts : List ℤ) (t x : ℤ), x ∈ ts → x ≤ ts.foldl max t
  | [], _, _, hx => absurd hx (List.not_mem_nil _)
  | a :: ts, t, x, hx => by
    rcases List.mem_cons.1 hx with rfl | hx
    · exact le_trans (le_max_right t x) (le_foldl_max ts (max t x))
    · exact foldl_max_le_of_mem ts (max t a) x hx

lemma foldl_max_le (B : ℤ) :
    ∀ (ts : List ℤ) (t : ℤ), t ≤ B → (∀ x ∈ ts, x ≤ B) → ts.foldl max t ≤ B
  | [], _, ht, _ => ht
  | a :: ts, t, ht, hts =>
      foldl_max_le B ts (max t a)
        (max_le ht (hts a (List.mem_cons_self a ts)))
        (fun x hx => hts x (List.mem_cons_of_mem a hx))

lemma foldl_max_mem :
    ∀ (ts : List ℤ) (t : ℤ), ts.foldl max t = t ∨ ts.foldl max t ∈ ts
  | [], _ => Or.inl rfl
  | a :: ts, t => by
    rcases foldl_max_mem ts (max t a) with h | h
    · rcases max_choice t a with hm | hm
      · exact Or.inl (by rw [List.foldl_cons, h, hm])
      · refine Or.inr ?_
        rw [List.foldl_cons, h, hm]
        exact List.mem_cons_self a ts
    · refine Or.inr (List.mem_cons_of_mem a ?_)
      rw [List.foldl_cons]
      exact h

/-- C8 counterexample: with an order timestamped two days after `now`, the
aggregated `lastOrderDays` is `-2` — negative, refuting "never negative" for
an arbitrary `now` instant. -/
theorem lastOrderDays_negative_cex :
    lastOrderDaysOf [⟨1, 2 * dayMs, 10⟩] 0 = -2 ∧
    ¬(0 ≤ lastOrderDaysOf [⟨1, 2 * dayMs, 10⟩] 0) :=
  ⟨by decide, by decide⟩

/-- C8 amended: provided every order timestamp is positive and no later than
`now`, the aggregated `lastOrderDays` equals the whole number of elapsed days
`⌊(now − lastOrder) / day⌋` where `lastOrder` is the most recent order's
timestamp, is nonnegative, and is the sentinel 999 when the account has no
orders. -/
theorem lastOrderDays_amended (userOrders : List Order) (now : ℤ)
    (hpos : ∀ o ∈ userOrders, 0 < o.created)
    (hle : ∀ o ∈ userOrders, o.created ≤ now) :
    (userOrders = [] → lastOrderDaysOf userOrders now = 999) ∧
    (userOrders ≠ [] →
      lastOrderDaysOf userOrders now
        = Int.fdiv (now - lastOrderMs userOrders) dayMs ∧
      0 ≤ lastOrderDaysOf userOrders now ∧
      lastOrderMs userOrders ∈ userOrders.map Order.created ∧
      ∀ o ∈ userOrders, o.created ≤ lastOrderMs userOrders) := by
  constructor
  · intro h
    subst h
    rfl
  · intro hne
    rcases userOrders with _ | ⟨o, os⟩
    · exact absurd rfl hne
    have hmax : lastOrderMs (o :: os) = (os.map Order.created).foldl max o.created := rfl
    have hpos0 : 0 < lastOrderMs (o :: os) := by
      refine lt_of_lt_of_le (hpos o (List.mem_cons_self o os)) ?_
      rw [hmax]
      exact le_foldl_max _ _
    have hlemax : ∀ o' ∈ o :: os, o'.created ≤ lastOrderMs (o :: os) := by
      intro o' ho'
      rw [hmax]
      rcases List.mem_cons.1 ho' with rfl | ho'
      · exact le_foldl_max _ _
      · exact foldl_max_le_of_mem _ _ _ (List.mem_map_of_mem Order.created ho')
    have hmem : lastOrderMs (o :: os) ∈ (o :: os).map Order.created := by
      rw [List.map_cons]
      rcases foldl_max_mem (os.map Order.created) o.created with h | h
      · rw [hmax, h]
        exact List.mem_cons_self _ _
      · rw [hmax]
        exact List.mem_cons_of_mem _ h
    have hnow : lastOrderMs (o :: os) ≤ now := by
      rw [hmax]
      refine foldl_max_le now _ _ (hle o (List.mem_cons_self o os)) ?_
      intro x hx
      obtain ⟨o', ho', rfl⟩ := List.mem_map.1 hx
      exact hle o' (List.mem_cons_of_mem o ho')
    have hdays : lastOrderDaysOf (o :: os) now
        = Int.fdiv (now - lastOrderMs (o :: os)) dayMs := by
      unfold lastOrderDaysOf
      rw [if_pos hpos0]
    refine ⟨hdays, ?_, hmem, hlemax⟩
    rw [hdays]
    exact Int.fdiv_nonneg (by linarith) (by norm_num [dayMs])

theorem lastOrderDays_amended_witness :
    lastOrderDaysOf [⟨1, dayMs, 10⟩] (5 * dayMs)
      = Int.fdiv (5 * dayMs - lastOrderMs [⟨1, dayMs, 10⟩]) dayMs ∧
    0 ≤ lastOrderDaysOf [⟨1, dayMs, 10⟩] (5 * dayMs) :=
  let h := (lastOrderDays_amended [⟨1, dayMs, 10⟩] (5 * dayMs)
    (by decide) (by decide)).2 (List.cons_ne_nil _ _)
  ⟨h.1, h.2.1⟩

/-- C9: contrary to the claim (and to the tool's own description "Requires
appropriate permissions"), `runSqlTool.execute` never invokes the
AuthContext/Permission-Gate contract: its result is entirely independent of
the caller's auth context, and an unauthenticated call with a valid SELECT
produces the queried rows with no error — even though `requireAuth` would
have rejected that same context with the authentication-required failure. -/
theorem runSql_executes_without_auth_gate :
    (∀ (users : List User) (orders : List Order) (a1 a2 : AuthContext)
      (sql : String) (limit : ℕ),
      runSqlExecute users orders a1 sql limit
        = runSqlExecute users orders a2 sql limit) ∧
    (runSqlExecute [⟨1, "Ada", "Berlin", "2024-01-01"⟩] []
      ⟨false, none, none, none⟩ "select * from users" 5).rows
      = [Row.user ⟨1, "Ada", "Berlin", "2024-01-01"⟩] ∧
    (runSqlExecute [⟨1, "Ada", "Berlin", "2024-01-01"⟩] []
      ⟨false, none, none, none⟩ "select * from users" 5).metadata.err = none ∧
    requireAuth ⟨false, none, none, none⟩ (some "read:users")
      = .error .authenticationRequired :=
  ⟨fun _ _ _ _ _ _ => rfl, rfl, rfl, rfl⟩

/-- C10: with no transport-supplied auth info, `authenticateRequest` falls
back to the `DEMO_API_KEY` environment variable, defaulting to
`api_key_user_456` when it is unset: the default principal is the role-user
analyst with permissions `read:users`/`read:orders` and session id
`demo-session`; any registry key authenticates as its principal, and an
unauthenticated result can only arise from a `DEMO_API_KEY` value that is
not in the mock registry. -/
theorem authenticateRequest_env_fallback (sid : Option String) :
    ((authenticateRequest none sid none).isAuthenticated = true ∧
      (authenticateRequest none sid none).user
        = some ⟨"user-1", "analyst", "user", ["read:users", "read:orders"]⟩ ∧
      (authenticateRequest none sid none).sessionId = some "demo-session") ∧
    (∀ k ai, mockUsers k = some ai →
      (authenticateRequest none sid (some k)).isAuthenticated = true ∧
      (authenticateRequest none sid (some k)).user = some ai.extra ∧
      (authenticateRequest none sid (some k)).sessionId = some "demo-session") ∧
    (∀ k, (authenticateRequest none sid (some k)).isAuthenticated = false →
      mockUsers k = none) := by
  refine ⟨⟨rfl, rfl, rfl⟩, ?_, ?_⟩
  · intro k ai h
    by_cases hk : k = ""
    · subst hk
      rw [show mockUsers "" = none from rfl] at h
      exact Option.noConfusion h
    · simp [authenticateRequest, hk, h]
  · intro k h
    by_cases hk : k = ""
    · subst hk
      rw [show (authenticateRequest none sid (some "")).isAuthenticated = true
        from rfl] at h
      exact Bool.noConfusion h
    · cases hm : mockUsers k with
      | none => rfl
      | some ai =>
          have htrue : (authenticateRequest none sid (some k)).isAuthenticated
              = true := by
            simp [authenticateRequest, hk, hm]
          rw [htrue] at h
          exact Bool.noConfusion h

theorem authenticateRequest_env_fallback_witness :
    (authenticateRequest none none (some "api_key_admin_123")).isAuthenticated
      = true ∧
    (authenticateRequest none none (some "api_key_admin_123")).user
      = some ⟨"admin-1", "admin", "admin",
          ["read:all", "write:all", "delete:all"]⟩ :=
  let h := (authenticateRequest_env_fallback none).2.1 "api_key_admin_123"
    ⟨"api_key_admin_123", "demo-admin-client",
      ["read:all", "write:all", "delete:all"],
      ⟨"admin-1", "admin", "admin", ["read:all", "write:all", "delete:all"]⟩⟩
    rfl
  ⟨h.1, h.2.1⟩

end Workshop
